import Mathlib

/-!
Shallow embedding of `nixpkgs/__init__.py` (the nixpkgs-python-importer
package): an importlib hook that resolves `nixpkgs.<name>` imports by
querying the Nix evaluator, materializing store paths, and loading the
resulting site-packages directories.

External collaborators (the Nix evaluator, the filesystem, `site.addsitedir`
and the host import machinery's module resolution) are modelled as an
environment record of oracle functions; the code of the repository is
translated function by function on top of it.  External calls performed by
`try_nixpkgs` are recorded in an explicit call log so that caching and
materialization claims can be stated.
-/

set_option autoImplicit false

/-- Python exception values relevant to this program.  `importError` wraps
the causing exception, mirroring `raise ImportError(e)`;
`moduleNotFound` stands for `ModuleNotFoundError` (a subclass of
`ImportError`); `indexError` models `list[0]` on an empty list. -/
inductive PyErr where
  | nixError (msg : String)
  | indexError
  | moduleNotFound (mname : String)
  | importError (cause : PyErr)
  | other (msg : String)
deriving DecidableEq

/-- One external call made by `try_nixpkgs`: the closure evaluation
(`nix.eval` of the getClosure expression), an `os.path.exists` check on a
store path, or the import-from-derivation evaluation that forces
realization of the store path. -/
inductive ExtCall where
  | closureEval (attr : String)
  | existsCheck (path : String)
  | ifdEval (attr : String)
deriving DecidableEq

/-- One entry of `os.listdir`: a file or directory name plus whether
`os.path.isdir` holds for it. -/
structure DirEntry where
  ename : String
  isDir : Bool
deriving DecidableEq

/-- Environment of external oracles.
`evalClosure` is the `nix.eval` getClosure query, keyed by the attribute
path, returning the list of store paths or a `NixError` message.
`ifdResult` is the behaviour of the realization `nix.eval` (importing a
file that never exists): `some msg` means it raises `NixError msg` (the
expected case), `none` means it returns without raising.
`existsBefore`/`existsAfter` are `os.path.exists` before and after the
realization attempt.  `glob` gives, per store path, the result of
`glob.glob(os.path.join(p, "lib", "py*", "*-packages"))`.
`addsitedir` maps a starting `sys.path` copy and a directory to the
`sys.path` value after `site.addsitedir` processed the directory and its
`.pth` files.  `resolve` is the host import machinery's resolution of a
module name against a `sys.path`, yielding an object identity.
`listdir` is `os.listdir`, and `pyMinor` is `sys.version_info.minor`. -/
structure Env where
  pyMinor : Nat
  evalClosure : String → Except String (List String)
  ifdResult : String → Option String
  existsBefore : String → Bool
  existsAfter : String → Bool
  glob : String → List String
  addsitedir : List String → String → List String
  resolve : List String → String → Except PyErr Nat
  listdir : String → List DirEntry

/-- Character-list test that `pre` is a prefix of `s`, embedding Python's
`str.startswith`. -/
def pyStartswith (s pre : String) : Bool :=
  List.isPrefixOf pre.data s.data

/-- Embedding of Python's `str.endswith`. -/
def pyEndswith (s suf : String) : Bool :=
  List.isPrefixOf suf.data.reverse s.data.reverse

/-- Split a character list on a separator character, keeping empty groups,
matching Python's `str.split(sep)`. -/
def splitChar (sep : Char) : List Char → List (List Char)
  | [] => [[]]
  | c :: rest =>
      let r := splitChar sep rest
      if c = sep then [] :: r
      else
        match r with
        | [] => [[c]]
        | g :: gs => (c :: g) :: gs

/-- Embedding of Python's `str.split(sep)` for a one-character separator. -/
def pySplit (s : String) (sep : Char) : List String :=
  (splitChar sep s.data).map (fun cs => String.mk cs)

/-- Embedding of `'.'.join(parts)`. -/
def joinDot : List String → String
  | [] => ""
  | [s] => s
  | s :: rest => s ++ "." ++ joinDot rest

/-- Embedding of `os.path.splitext` for a bare file name: split at the last
dot, except that a name whose characters before the last dot are all dots
(such as `.hidden`) has no extension. -/
def pySplitext (f : String) : String × String :=
  let cs := f.data
  let dotIdxs := (List.range cs.length).filter (fun i => cs.getD i ' ' == '.')
  match dotIdxs.getLast? with
  | none => (f, "")
  | some k =>
      if (List.range k).any (fun j => cs.getD j ' ' != '.') then
        (String.mk (cs.take k), String.mk (cs.drop k))
      else (f, "")

/-- Test for `Except.ok`. -/
def exceptOk {ε α : Type} : Except ε α → Bool
  | Except.ok _ => true
  | Except.error _ => false

instance {ε α : Type} [DecidableEq ε] [DecidableEq α] : DecidableEq (Except ε α)
  | Except.ok a, Except.ok b =>
      if h : a = b then isTrue (by rw [h])
      else isFalse (by intro hh; injection hh; contradiction)
  | Except.ok _, Except.error _ => isFalse (by intro h; exact Except.noConfusion h)
  | Except.error _, Except.ok _ => isFalse (by intro h; exact Except.noConfusion h)
  | Except.error a, Except.error b =>
      if h : a = b then isTrue (by rw [h])
      else isFalse (by intro hh; injection hh; contradiction)

/-- Attribute path `"python3%sPackages.%s" % (sys.version_info.minor, name)`
built by `try_nixpkgs`. -/
def attrPath (env : Env) (pname : String) : String :=
  "python3" ++ toString env.pyMinor ++ "Packages." ++ pname

/-- Embedding of `try_nixpkgs(topmost_name)` (without its `lru_cache`
decoration; see `cachedTryNixpkgs`): evaluate the dependency closure,
check `os.path.exists(store_paths[0])`, realize via
import-from-derivation when the primary output is missing (re-raising the
`NixError` only if the path still does not exist afterwards), and return
the flattened glob results over all store paths.  Any exception is wrapped
in `ImportError`.  The second component is the log of external calls
performed, in order. -/
def try_nixpkgs (env : Env) (pname : String) :
    Except PyErr (List String) × List ExtCall :=
  let ap := attrPath env pname
  match env.evalClosure ap with
  | Except.error msg =>
      (Except.error (PyErr.importError (PyErr.nixError msg)), [ExtCall.closureEval ap])
  | Except.ok [] =>
      (Except.error (PyErr.importError PyErr.indexError), [ExtCall.closureEval ap])
  | Except.ok (p0 :: rest) =>
      let paths := ((p0 :: rest).map env.glob).flatten
      if env.existsBefore p0 then
        (Except.ok paths, [ExtCall.closureEval ap, ExtCall.existsCheck p0])
      else
        match env.ifdResult ap with
        | none =>
            (Except.ok paths,
              [ExtCall.closureEval ap, ExtCall.existsCheck p0, ExtCall.ifdEval ap])
        | some msg =>
            if env.existsAfter p0 then
              (Except.ok paths,
                [ExtCall.closureEval ap, ExtCall.existsCheck p0, ExtCall.ifdEval ap,
                  ExtCall.existsCheck p0])
            else
              (Except.error (PyErr.importError (PyErr.nixError msg)),
                [ExtCall.closureEval ap, ExtCall.existsCheck p0, ExtCall.ifdEval ap,
                  ExtCall.existsCheck p0])

/-- First-match association-list lookup over string keys, modelling a
Python dict read. -/
def lookupA {α : Type} : List (String × α) → String → Option α
  | [], _ => none
  | (k, v) :: rest, key => if key = k then some v else lookupA rest key

/-- Remove the first binding of a key, helper for `setA`. -/
def eraseA {α : Type} : List (String × α) → String → List (String × α)
  | [], _ => []
  | (k, v) :: rest, key => if key = k then rest else (k, v) :: eraseA rest key

/-- Overwriting insert, modelling a Python dict write `d[key] = v`. -/
def setA {α : Type} (l : List (String × α)) (key : String) (v : α) :
    List (String × α) :=
  (key, v) :: eraseA l key

/-- Default maxsize of `functools.lru_cache()`, used by the undecorated
`@functools.lru_cache()` on `try_nixpkgs`. -/
def lruMaxsize : Nat := 128

/-- Embedding of the `lru_cache`-decorated `try_nixpkgs`: the cache is an
association list in most-recently-used-first order.  A hit returns the
memoized value with no external calls and moves the entry to the front; a
miss runs `try_nixpkgs`, caching a successful result (evicting the least
recently used entry beyond `lruMaxsize`) and leaving the cache unchanged
when an exception is raised (`lru_cache` does not memoize exceptions). -/
def cachedTryNixpkgs (env : Env) (c : List (String × List String))
    (pname : String) :
    Except PyErr (List String) × List (String × List String) × List ExtCall :=
  match lookupA c pname with
  | some v => (Except.ok v, (pname, v) :: eraseA c pname, [])
  | none =>
      match try_nixpkgs env pname with
      | (Except.ok v, log) => (Except.ok v, ((pname, v) :: c).take lruMaxsize, log)
      | (Except.error e, log) => (Except.error e, c, log)

/-- Name extracted by `NixpkgsFinder.find_module`:
`module_name.split('.')[1]`.  The default is unreachable at the call
site: the split of a name that starts with `nixpkgs.` always has at least
two components. -/
def childName (module_name : String) : String :=
  (pySplit module_name '.').getD 1 ""

/-- One `_add_path` step of `FromExtraPathsLoader.__init__`, acting on the
pair (accumulated `extra_paths`, current `sys.path`): append the path
itself, run `site.addsitedir` on a copy of `sys.path`, collect the
entries the copy gained (`.pth` expansion), restore `sys.path`, and
append the gained entries. -/
def add_path (env : Env) (st : List String × List String) (path : String) :
    List String × List String :=
  let old_path := st.2
  let afterSite := env.addsitedir old_path path
  let delta := afterSite.filter (fun p => !(List.contains old_path p))
  (st.1 ++ [path] ++ delta, old_path)

/-- Embedding of `FromExtraPathsLoader.__init__(extra_paths)`: fold
`_add_path` over the given paths, returning the loader's `extra_paths`
list and the final `sys.path`. -/
def loaderInit (env : Env) (sysPath : List String) (paths : List String) :
    List String × List String :=
  List.foldl (add_path env) ([], sysPath) paths

/-- Embedding of `NixpkgsFinder.find_module(module_name, package_path)`:
outside the `nixpkgs.` prefix the finder has no opinion; inside it, it
resolves the child name through the cached `try_nixpkgs` and returns a
loader (its `extra_paths`, built by `FromExtraPathsLoader`) when the
resolved path list is non-empty.  An exception raised by `try_nixpkgs`
propagates (the method has no handler).  Result: the finder's answer, the
new cache and the external-call log. -/
def find_module (env : Env) (c : List (String × List String))
    (sysPath : List String) (module_name : String) :
    Except PyErr (Option (List String)) × List (String × List String) × List ExtCall :=
  if pyStartswith module_name "nixpkgs." then
    match cachedTryNixpkgs env c (childName module_name) with
    | (Except.error e, c', log) => (Except.error e, c', log)
    | (Except.ok paths, c', log) =>
        if paths.isEmpty then (Except.ok none, c', log)
        else (Except.ok (some (loaderInit env sysPath paths).1), c', log)
  else (Except.ok none, c, [])

/-- Embedding of `FromExtraPathsLoader._filter_modules`, as a function of
the primary directory's listing: skip hidden entries, `__pycache__` and
`.dist-info` entries; yield directory names as-is; for files, yield the
leading `-`-segment of `.egg` names and the stem of `.py`/`.so` names. -/
def filter_modules (entries : List DirEntry) : List String :=
  (entries.map (fun f =>
    if pyStartswith f.ename "." = true ∨ f.ename = "__pycache__" ∨
        pyEndswith f.ename ".dist-info" = true then []
    else if f.isDir = true then [f.ename]
    else
      (if pyEndswith f.ename ".egg" = true then [(pySplit f.ename '-').getD 0 ""] else []) ++
      (let pr := pySplitext f.ename
       if pr.2 = ".py" ∨ pr.2 = ".so" then [pr.1] else []))).flatten

/-- Python objects held in `sys.modules` and as namespace attributes:
ordinary modules and `NixPackage` namespace objects, each with an object
identity.  A `NixPackage` carries its `__name__` and its module
attributes (attribute name to object identity). -/
inductive PyObj where
  | mod (id : Nat)
  | pkg (id : Nat) (pname : String) (attrs : List (String × Nat))
deriving DecidableEq

/-- Object identity of a `PyObj`. -/
def objId : PyObj → Nat
  | PyObj.mod i => i
  | PyObj.pkg i _ _ => i

/-- The mutable interpreter state touched by the loader: `sys.path`,
`sys.modules`, and a counter supplying fresh object identities for
`NixPackage` allocation. -/
structure PyState where
  sysPath : List String
  sysModules : List (String × PyObj)
  nextId : Nat
deriving DecidableEq

/-- Model of `importlib.import_module(mname)` for the host import
machinery (an external collaborator): an already-registered module is
returned from `sys.modules`; otherwise the name is resolved against the
current `sys.path` and, on success, the module is registered in
`sys.modules` under its own name.  Failure leaves the state unchanged. -/
def pyImport (env : Env) (st : PyState) (mname : String) :
    Except PyErr PyObj × PyState :=
  match lookupA st.sysModules mname with
  | some o => (Except.ok o, st)
  | none =>
      match env.resolve st.sysPath mname with
      | Except.error e => (Except.error e, st)
      | Except.ok i =>
          (Except.ok (PyObj.mod i),
            { st with sysModules := setA st.sysModules mname (PyObj.mod i) })

/-- Membership in Python's `except (ImportError, ModuleNotFoundError)`
clause (`ModuleNotFoundError` subclasses `ImportError`). -/
def isImportErrClass : PyErr → Bool
  | PyErr.importError _ => true
  | PyErr.moduleNotFound _ => true
  | _ => false

/-- Deep-form body of `FromExtraPathsLoader.load_module`: import the
dotted remainder through the unqualified module system; on success alias
the resulting module object under the synthetic name; swallow
`ImportError`/`ModuleNotFoundError`; let other exceptions propagate. -/
def deepLoad (env : Env) (st : PyState) (sname mod_path : String) :
    Except PyErr Unit × PyState :=
  match pyImport env st mod_path with
  | (Except.error e, st') =>
      if isImportErrClass e then (Except.ok (), st') else (Except.error e, st')
  | (Except.ok o, st') =>
      (Except.ok (), { st' with sysModules := setA st'.sysModules sname o })

/-- Shallow-form loop of `FromExtraPathsLoader.load_module`: for each
enumerated module name, import it unqualified, set it as an attribute of
the `NixPackage` object, and (inside the loop) bind the package object in
`sys.modules` under the synthetic name.  An exception from an import
propagates immediately. -/
def shallowLoop (env : Env) (sname : String) (pkgId : Nat) :
    PyState → List (String × Nat) → List String → Except PyErr Unit × PyState
  | st, _, [] => (Except.ok (), st)
  | st, attrs, m :: ms =>
      match pyImport env st m with
      | (Except.error e, st') => (Except.error e, st')
      | (Except.ok o, st') =>
          let attrs' := setA attrs m (objId o)
          let st'' :=
            { st' with sysModules := setA st'.sysModules sname (PyObj.pkg pkgId sname attrs') }
          shallowLoop env sname pkgId st'' attrs' ms

/-- Shallow-form body of `FromExtraPathsLoader.load_module`: allocate a
fresh `NixPackage` and run the loop over the modules enumerated from the
primary search path `extra_paths[0]` (an empty `extra_paths` raises
`IndexError`). -/
def shallowLoad (env : Env) (extraPaths : List String) (st : PyState)
    (sname : String) : Except PyErr Unit × PyState :=
  match extraPaths with
  | [] => (Except.error PyErr.indexError, st)
  | base :: _ =>
      shallowLoop env sname st.nextId { st with nextId := st.nextId + 1 } []
        (filter_modules (env.listdir base))

/-- Embedding of `FromExtraPathsLoader.load_module(name)`: split the
request name, temporarily extend `sys.path` with the loader's
`extra_paths`, run the shallow or deep form, and restore the saved
`sys.path` on every exit path (the `try`/`finally`). -/
def load_module (env : Env) (extraPaths : List String) (st : PyState)
    (sname : String) : Except PyErr Unit × PyState :=
  let python_mod := (pySplit sname '.').drop 2
  let stAug : PyState := { st with sysPath := st.sysPath ++ extraPaths }
  let inner :=
    if python_mod.isEmpty then shallowLoad env extraPaths stAug sname
    else deepLoad env stAug sname (joinDot python_mod)
  (inner.1, { inner.2 with sysPath := st.sysPath })

/-- Concrete environment for witnesses: every package evaluates to a
single already-existing store path, globbing yields one site-packages
directory, `.pth` processing adds the directory itself, and every module
name resolves to an object identity. -/
def envBase : Env where
  pyMinor := 11
  evalClosure := fun a => Except.ok ["/s/" ++ a]
  ifdResult := fun _ => some "expected realization error"
  existsBefore := fun _ => true
  existsAfter := fun _ => true
  glob := fun p => [p ++ "/lib/python3.11/site-packages"]
  addsitedir := fun sp p => sp ++ [p]
  resolve := fun _ n => Except.ok n.length
  listdir := fun _ => [DirEntry.mk "a.py" false, DirEntry.mk "b.so" false]

/-- Environment whose evaluator reports an unknown attribute for every
package. -/
def envUnknown : Env :=
  { envBase with evalClosure := fun _ => Except.error "unknown attribute" }

/-- Environment with constant store path and glob result, used for the
cache-eviction run. -/
def envFlat : Env :=
  { envBase with
      evalClosure := fun _ => Except.ok ["/s"],
      glob := fun _ => ["/sp"] }

/-- Environment whose primary search directory is empty. -/
def envEmptyDir : Env :=
  { envBase with listdir := fun _ => [] }

/-- Environment where only the module `sub.mod` resolves. -/
def envDeep : Env :=
  { envBase with
      resolve := fun _ n =>
        if n = "sub.mod" then Except.ok 7 else Except.error (PyErr.moduleNotFound n) }

/-- The 129 distinct single-character package names of the eviction run. -/
def evictNames : List String :=
  (List.range 129).map (fun i => String.mk [Char.ofNat (48 + i)])

/-- Cache state after successfully resolving all 129 names in order
against `envFlat`, starting from an empty cache. -/
def evictCache : List (String × List String) :=
  evictNames.foldl (fun c n => (cachedTryNixpkgs envFlat c n).2.1) []

/-! ### Helper lemmas about the association-list model -/

theorem lookupA_eraseA {α : Type} (l : List (String × α)) (key x : String)
    (hx : x ≠ key) : lookupA (eraseA l key) x = lookupA l x := by
  induction l with
  | nil => rfl
  | cons p rest ih =>
    obtain ⟨k, v⟩ := p
    by_cases hk : key = k
    · subst hk
      simp [eraseA, lookupA, hx]
    · simp only [eraseA, if_neg hk, lookupA]
      by_cases hxk : x = k
      · simp only [if_pos hxk]
      · simp only [if_neg hxk, ih]

theorem lookupA_setA {α : Type} (l : List (String × α)) (key x : String) (v : α) :
    lookupA (setA l key v) x = if x = key then some v else lookupA l x := by
  by_cases hx : x = key
  · simp only [setA, lookupA, if_pos hx]
  · simp only [setA, lookupA, if_neg hx, lookupA_eraseA l key x hx]

theorem isSome_lookupA_setA {α : Type} (l : List (String × α)) (key x : String)
    (v : α) (h : (lookupA l x).isSome = true) :
    (lookupA (setA l key v) x).isSome = true := by
  rw [lookupA_setA]
  by_cases hx : x = key
  · simp [hx]
  · simpa [hx] using h

/-! ### Helper lemmas about `pyImport` and the loader loops -/

theorem pyImport_lookup (env : Env) (st : PyState) (mname : String) (o : PyObj)
    (st' : PyState) (h : pyImport env st mname = (Except.ok o, st')) :
    lookupA st'.sysModules mname = some o := by
  unfold pyImport at h
  cases hl : lookupA st.sysModules mname with
  | some o' =>
    rw [hl] at h
    simp only [Prod.mk.injEq, Except.ok.injEq] at h
    obtain ⟨h1, h2⟩ := h
    subst h1; subst h2; exact hl
  | none =>
    rw [hl] at h
    cases hr : env.resolve st.sysPath mname with
    | error e => rw [hr] at h; simp at h
    | ok i =>
      rw [hr] at h
      simp only [Prod.mk.injEq, Except.ok.injEq] at h
      obtain ⟨h1, h2⟩ := h
      subst h2
      rw [← h1]
      simp [lookupA_setA]

theorem pyImport_mono (env : Env) (st : PyState) (mname k : String)
    (h : (lookupA st.sysModules k).isSome = true) :
    (lookupA (pyImport env st mname).2.sysModules k).isSome = true := by
  unfold pyImport
  cases hl : lookupA st.sysModules mname with
  | some o => exact h
  | none =>
    cases hr : env.resolve st.sysPath mname with
    | error e => exact h
    | ok i => exact isSome_lookupA_setA _ _ _ _ h

theorem pyImport_error_state (env : Env) (st : PyState) (mname : String)
    (e : PyErr) (st' : PyState) (h : pyImport env st mname = (Except.error e, st')) :
    st' = st := by
  unfold pyImport at h
  cases hl : lookupA st.sysModules mname with
  | some o => rw [hl] at h; simp at h
  | none =>
    rw [hl] at h
    cases hr : env.resolve st.sysPath mname with
    | error e' =>
      rw [hr] at h
      simp only [Prod.mk.injEq] at h
      exact h.2.symm
    | ok i => rw [hr] at h; simp at h

theorem shallowLoop_mono (env : Env) (sname : String) (pid : Nat) :
    ∀ (ms : List String) (st : PyState) (attrs : List (String × Nat))
      (res : Except PyErr Unit) (st' : PyState) (k : String),
      shallowLoop env sname pid st attrs ms = (res, st') →
      (lookupA st.sysModules k).isSome = true →
      (lookupA st'.sysModules k).isSome = true := by
  intro ms
  induction ms with
  | nil =>
    intro st attrs res st' k h hk
    simp only [shallowLoop, Prod.mk.injEq] at h
    rw [← h.2]; exact hk
  | cons m ms ih =>
    intro st attrs res st' k h hk
    rw [shallowLoop] at h
    rcases himp : pyImport env st m with ⟨r, st₁⟩
    rw [himp] at h
    have hk₁ : (lookupA st₁.sysModules k).isSome = true := by
      have hmono := pyImport_mono env st m k hk
      rwa [himp] at hmono
    cases r with
    | error e =>
      dsimp only at h
      simp only [Prod.mk.injEq] at h
      rw [← h.2]; exact hk₁
    | ok o =>
      dsimp only at h
      exact ih _ _ _ _ k h (isSome_lookupA_setA _ _ _ _ hk₁)

theorem shallowLoop_registers (env : Env) (sname : String) (pid : Nat) :
    ∀ (ms : List String) (st : PyState) (attrs : List (String × Nat)) (st' : PyState),
      shallowLoop env sname pid st attrs ms = (Except.ok (), st') →
      ∀ m, m ∈ ms → (lookupA st'.sysModules m).isSome = true := by
  intro ms
  induction ms with
  | nil => intro st attrs st' h m hm; exact absurd hm (List.not_mem_nil m)
  | cons m₀ ms ih =>
    intro st attrs st' h m hm
    rw [shallowLoop] at h
    rcases himp : pyImport env st m₀ with ⟨r, st₁⟩
    rw [himp] at h
    cases r with
    | error e => dsimp only at h; simp at h
    | ok o =>
      dsimp only at h
      rcases List.mem_cons.mp hm with hm₀ | hmrest
      · subst hm₀
        have hreg : lookupA st₁.sysModules m = some o := pyImport_lookup env st m o st₁ himp
        have h1 : (lookupA st₁.sysModules m).isSome = true := by rw [hreg]; rfl
        exact shallowLoop_mono env sname pid ms _ _ _ _ m h (isSome_lookupA_setA _ _ _ _ h1)
      · exact ih _ _ _ h m hmrest

theorem shallowLoop_pkg (env : Env) (sname : String) (pid : Nat) :
    ∀ (ms : List String) (st : PyState) (attrs : List (String × Nat)) (st' : PyState),
      shallowLoop env sname pid st attrs ms = (Except.ok (), st') →
      sname ∉ ms → ms ≠ [] →
      ∃ A, lookupA st'.sysModules sname = some (PyObj.pkg pid sname A) ∧
        ∀ x, (lookupA A x).isSome = true ↔
          ((lookupA attrs x).isSome = true ∨ x ∈ ms) := by
  intro ms
  induction ms with
  | nil => intro st attrs st' h hn hne; exact absurd rfl hne
  | cons m ms ih =>
    intro st attrs st' h hn hne
    rw [shallowLoop] at h
    rcases himp : pyImport env st m with ⟨r, st₁⟩
    rw [himp] at h
    cases r with
    | error e => dsimp only at h; simp at h
    | ok o =>
      dsimp only at h
      by_cases hms : ms = []
      · subst hms
        rw [shallowLoop] at h
        simp only [Prod.mk.injEq] at h
        refine ⟨setA attrs m (objId o), ?_, ?_⟩
        · rw [← h.2]
          simp [lookupA_setA]
        · intro x
          rw [lookupA_setA]
          by_cases hx : x = m
          · subst hx; simp
          · simp [hx]
      · have hn' : sname ∉ ms := fun hh => hn (List.mem_cons_of_mem m hh)
        obtain ⟨A, hA1, hA2⟩ := ih _ _ _ h hn' hms
        refine ⟨A, hA1, ?_⟩
        intro x
        rw [hA2 x, lookupA_setA]
        by_cases hx : x = m
        · subst hx; simp
        · simp [hx]

theorem loaderInit_aux (env : Env) :
    ∀ (paths : List String) (acc sp : List String),
      (List.foldl (add_path env) (acc, sp) paths).2 = sp ∧
      ∃ rest, (List.foldl (add_path env) (acc, sp) paths).1 = acc ++ rest ∧
        List.Sublist paths rest := by
  intro paths
  induction paths with
  | nil =>
    intro acc sp
    exact ⟨rfl, [], by simp, List.nil_sublist []⟩
  | cons p ps ih =>
    intro acc sp
    rw [List.foldl_cons]
    have hstep : add_path env (acc, sp) p =
        (acc ++ [p] ++ ((env.addsitedir sp p).filter (fun q => !(List.contains sp q))), sp) :=
      rfl
    rw [hstep]
    obtain ⟨h2, rest, h1, hsub⟩ :=
      ih (acc ++ [p] ++ (env.addsitedir sp p).filter (fun q => !(List.contains sp q))) sp
    refine ⟨h2,
      [p] ++ (env.addsitedir sp p).filter (fun q => !(List.contains sp q)) ++ rest, ?_, ?_⟩
    · rw [h1]; simp [List.append_assoc]
    · exact List.Sublist.cons₂ p (hsub.trans (List.sublist_append_right _ _))

/-! ### Claim theorems -/

/-- C3: for a primary search-path directory whose entries are exactly the
files `a.py`, `b.so`, `c.egg-info` and the hidden file `.hidden`, the
shallow-form enumeration `_filter_modules` yields exactly the module
names `a` and `b`: the hidden entry is skipped, the metadata entry
contributes nothing, and `.py`/`.so` entries are reduced to their stem. -/
theorem c3_filter_modules_shallow_set :
    filter_modules
      [DirEntry.mk "a.py" false, DirEntry.mk "b.so" false,
        DirEntry.mk "c.egg-info" false, DirEntry.mk ".hidden" false] = ["a", "b"] := by
  decide

/-- C4: for every invocation of the loader's `load_module` (shallow or
deep form), whether the body succeeds or raises, `sys.path` after the
invocation equals `sys.path` before it: the `finally` clause restores the
saved path on every exit path. -/
theorem c4_sys_path_restored (env : Env) (extraPaths : List String) (st : PyState)
    (sname : String) :
    ((load_module env extraPaths st sname).2).sysPath = st.sysPath := rfl

/-- C9: for every module name that does not start with `nixpkgs.` —
including the bare name `nixpkgs` and unrelated names such as
`nixpkgs_foo` — `NixpkgsFinder.find_module` returns `None` without
calling the resolver (no external calls, cache untouched). -/
theorem c9_no_opinion_outside_namespace (env : Env) (c : List (String × List String))
    (sysPath : List String) (module_name : String)
    (h : pyStartswith module_name "nixpkgs." = false) :
    find_module env c sysPath module_name = (Except.ok none, c, []) := by
  simp [find_module, h]

theorem c9_no_opinion_outside_namespace_witness :
    find_module envBase [] [] "nixpkgs" = (Except.ok none, [], []) ∧
    find_module envBase [] [] "nixpkgs_foo" = (Except.ok none, [], []) :=
  ⟨c9_no_opinion_outside_namespace envBase [] [] "nixpkgs" (by decide),
    c9_no_opinion_outside_namespace envBase [] [] "nixpkgs_foo" (by decide)⟩

/-- C10: constructing `FromExtraPathsLoader(extra_paths)` leaves
`sys.path` exactly unchanged (each `_add_path` restores the saved path),
and the given paths are accumulated, in order, into the loader's own
`extra_paths` list (interleaved with the `.pth`-derived additions each
contributes). -/
theorem c10_loader_init_frame (env : Env) (sysPath : List String)
    (paths : List String) :
    (loaderInit env sysPath paths).2 = sysPath ∧
    List.Sublist paths (loaderInit env sysPath paths).1 := by
  obtain ⟨h2, rest, h1, hsub⟩ := loaderInit_aux env paths [] sysPath
  refine ⟨h2, ?_⟩
  unfold loaderInit
  rw [h1]
  simpa using hsub

/-- C1 (amended): after a package name is resolved successfully once, any
later request for it made while its entry is still cached performs zero
additional external calls and returns the identical path list, and a
successful resolution does leave the entry cached; entries live in an LRU
cache of capacity 128 (so they can be evicted, contrary to the claim's
"no eviction"), and failed resolutions are not memoized. -/
theorem c1_memoization (env : Env) (c : List (String × List String))
    (pname : String) :
    (∀ v, lookupA c pname = some v →
      (cachedTryNixpkgs env c pname).1 = Except.ok v ∧
      (cachedTryNixpkgs env c pname).2.2 = []) ∧
    (∀ v c' log, cachedTryNixpkgs env c pname = (Except.ok v, c', log) →
      lookupA c' pname = some v) := by
  constructor
  · intro v hv
    simp [cachedTryNixpkgs, hv]
  · intro v c' log h
    unfold cachedTryNixpkgs at h
    cases hl : lookupA c pname with
    | some v₀ =>
      rw [hl] at h
      simp only [Prod.mk.injEq, Except.ok.injEq] at h
      obtain ⟨h1, h2, _⟩ := h
      rw [← h2]
      simp [lookupA, h1]
    | none =>
      rw [hl] at h
      rcases htry : try_nixpkgs env pname with ⟨r, log₀⟩
      rw [htry] at h
      cases r with
      | error e => dsimp only at h; simp at h
      | ok v₀ =>
        dsimp only at h
        simp only [Prod.mk.injEq, Except.ok.injEq] at h
        obtain ⟨h1, h2, _⟩ := h
        rw [← h2]
        have hms : lruMaxsize = 127 + 1 := rfl
        rw [hms, List.take_succ_cons]
        simp [lookupA, h1]

theorem c1_memoization_witness :
    (cachedTryNixpkgs envBase [("scipy", ["/sp"])] "scipy").1 = Except.ok ["/sp"] ∧
    (cachedTryNixpkgs envBase [("scipy", ["/sp"])] "scipy").2.2 = [] :=
  (c1_memoization envBase [("scipy", ["/sp"])] "scipy").1 ["/sp"] (by decide)

set_option maxRecDepth 8000 in
/-- C1 counterexample: the cache is `functools.lru_cache()` with its
default maxsize of 128, not an eviction-free process-lifetime cache.  The
package named `"0"` is resolved successfully on the first request (one
external round trip), but after 128 further distinct names are resolved
its entry has been evicted, and a later request for `"0"` performs
additional external calls — refuting "zero additional external
evaluator/materializer calls" for "every later request". -/
theorem c1_eviction_counterexample :
    (cachedTryNixpkgs envFlat [] (String.mk [Char.ofNat 48])).1 = Except.ok ["/sp"] ∧
    (cachedTryNixpkgs envFlat evictCache (String.mk [Char.ofNat 48])).2.2 ≠ [] := by
  refine ⟨rfl, ?_⟩
  decide

/-- C2 (amended): for a package name the evaluator reports as unknown (and
that is not cached), `try_nixpkgs` wraps the evaluator's `NixError` in an
`ImportError`, and this `ImportError` propagates out of
`NixpkgsFinder.find_module` — no loader is returned, the escaping
exception is an `ImportError` (which the host import machinery surfaces
as an ordinary import failure of the requesting import statement, not a
hard crash), and the failure is not cached. -/
theorem c2_unknown_attr_import_failure (env : Env) (c : List (String × List String))
    (sysPath : List String) (module_name msg : String)
    (hpre : pyStartswith module_name "nixpkgs." = true)
    (hmiss : lookupA c (childName module_name) = none)
    (hev : env.evalClosure (attrPath env (childName module_name)) = Except.error msg) :
    (find_module env c sysPath module_name).1 =
      Except.error (PyErr.importError (PyErr.nixError msg)) ∧
    (find_module env c sysPath module_name).2.1 = c := by
  simp [find_module, hpre, cachedTryNixpkgs, hmiss, try_nixpkgs, hev]

theorem c2_unknown_attr_import_failure_witness :
    (find_module envUnknown [] [] "nixpkgs.numpy").1 =
      Except.error (PyErr.importError (PyErr.nixError "unknown attribute")) ∧
    (find_module envUnknown [] [] "nixpkgs.numpy").2.1 = [] :=
  c2_unknown_attr_import_failure envUnknown [] [] "nixpkgs.numpy" "unknown attribute"
    (by decide) rfl rfl

/-- C2 counterexample: on a request for `nixpkgs.numpy` with `numpy`
unknown to the evaluator, `find_module` does not report "no opinion"
(return `None`): the `ImportError` raised inside `try_nixpkgs` escapes
the finder, since `find_module` has no exception handler. -/
theorem c2_counterexample :
    (find_module envUnknown [] [] "nixpkgs.numpy").1 =
      Except.error (PyErr.importError (PyErr.nixError "unknown attribute")) ∧
    (find_module envUnknown [] [] "nixpkgs.numpy").1 ≠ Except.ok none := by
  refine ⟨rfl, ?_⟩
  decide

/-- C8: in the materialization step of `try_nixpkgs`, when the primary
output path (the first element of the closure) already exists no
realization is triggered (no import-from-derivation evaluation appears in
the call log) and the resolution succeeds with the glob results; when it
does not exist and the realization evaluation raises (as the code
expects, since it imports a file that never exists), the call errors if
and only if the primary output still does not exist afterwards; and the
only path whose existence is ever checked is the primary output —
dependency outputs are never checked. -/
theorem c8_materialization (env : Env) (pname p0 : String) (rest : List String)
    (hev : env.evalClosure (attrPath env pname) = Except.ok (p0 :: rest)) :
    (env.existsBefore p0 = true →
      (∀ a, ExtCall.ifdEval a ∉ (try_nixpkgs env pname).2) ∧
      (try_nixpkgs env pname).1 = Except.ok (((p0 :: rest).map env.glob).flatten)) ∧
    (∀ msg, env.existsBefore p0 = false →
      env.ifdResult (attrPath env pname) = some msg →
      exceptOk (try_nixpkgs env pname).1 = env.existsAfter p0) ∧
    (∀ q, ExtCall.existsCheck q ∈ (try_nixpkgs env pname).2 → q = p0) := by
  refine ⟨?_, ?_, ?_⟩
  · intro hb
    constructor
    · intro a
      simp [try_nixpkgs, hev, hb]
    · simp [try_nixpkgs, hev, hb]
  · intro msg hb hifd
    cases hA : env.existsAfter p0 <;>
      simp [try_nixpkgs, hev, hb, hifd, hA, exceptOk]
  · intro q hq
    by_cases hb : env.existsBefore p0 = true
    · simp [try_nixpkgs, hev, hb] at hq
      simpa using hq
    · have hb0 : env.existsBefore p0 = false := by simpa using hb
      cases hifd : env.ifdResult (attrPath env pname) with
      | none =>
        simp [try_nixpkgs, hev, hifd, hb0] at hq
        simpa using hq
      | some msg =>
        cases hA : env.existsAfter p0 <;>
          · simp [try_nixpkgs, hev, hifd, hA, hb0] at hq
            simpa using hq

theorem c8_materialization_witness :
    (envBase.existsBefore "/s/python311Packages.scipy" = true →
      (∀ a, ExtCall.ifdEval a ∉ (try_nixpkgs envBase "scipy").2) ∧
      (try_nixpkgs envBase "scipy").1 =
        Except.ok ((["/s/python311Packages.scipy"].map envBase.glob).flatten)) ∧
    (∀ msg, envBase.existsBefore "/s/python311Packages.scipy" = false →
      envBase.ifdResult (attrPath envBase "scipy") = some msg →
      exceptOk (try_nixpkgs envBase "scipy").1 =
        envBase.existsAfter "/s/python311Packages.scipy") ∧
    (∀ q, ExtCall.existsCheck q ∈ (try_nixpkgs envBase "scipy").2 →
      q = "/s/python311Packages.scipy") :=
  c8_materialization envBase "scipy" "/s/python311Packages.scipy" [] rfl

/-- C5: for a deep-form request whose dotted remainder imports
successfully under the augmented `sys.path`, the object bound in
`sys.modules` under the synthetic name is the very same module object the
unqualified import produced — after `load_module`, the synthetic name and
the unqualified remainder name map to the same object in `sys.modules`
(an alias, not a copy). -/
theorem c5_deep_alias (env : Env) (extraPaths : List String) (st : PyState)
    (sname : String) (sub : List String) (o : PyObj) (st₂ : PyState)
    (hsplit : (pySplit sname '.').drop 2 = sub)
    (hsub : sub ≠ [])
    (hneq : sname ≠ joinDot sub)
    (himp : pyImport env { st with sysPath := st.sysPath ++ extraPaths } (joinDot sub) =
      (Except.ok o, st₂)) :
    (load_module env extraPaths st sname).1 = Except.ok () ∧
    lookupA ((load_module env extraPaths st sname).2).sysModules sname = some o ∧
    lookupA ((load_module env extraPaths st sname).2).sysModules (joinDot sub) =
      some o := by
  have hie : sub.isEmpty = false := by
    cases sub with
    | nil => exact absurd rfl hsub
    | cons a l => rfl
  simp only [load_module, hsplit, hie, Bool.false_eq_true, if_false, deepLoad, himp]
  refine ⟨trivial, ?_, ?_⟩
  · simp [lookupA_setA]
  · rw [lookupA_setA]
    rw [if_neg (Ne.symm hneq)]
    exact pyImport_lookup env _ (joinDot sub) o st₂ himp

theorem c5_deep_alias_witness :
    (load_module envDeep ["/p"] (PyState.mk ["/u"] [] 0) "nixpkgs.pkg.sub.mod").1 =
      Except.ok () ∧
    lookupA ((load_module envDeep ["/p"] (PyState.mk ["/u"] [] 0)
        "nixpkgs.pkg.sub.mod").2).sysModules "nixpkgs.pkg.sub.mod" =
      some (PyObj.mod 7) ∧
    lookupA ((load_module envDeep ["/p"] (PyState.mk ["/u"] [] 0)
        "nixpkgs.pkg.sub.mod").2).sysModules (joinDot ["sub", "mod"]) =
      some (PyObj.mod 7) :=
  c5_deep_alias envDeep ["/p"] (PyState.mk ["/u"] [] 0) "nixpkgs.pkg.sub.mod"
    ["sub", "mod"] (PyObj.mod 7)
    (PyState.mk (["/u"] ++ ["/p"]) [("sub.mod", PyObj.mod 7)] 0)
    (by decide) (by decide) (by decide) (by decide)

/-- C6: for a deep-form request whose unqualified import of the dotted
remainder raises `ImportError` or `ModuleNotFoundError`, `load_module`
swallows the failure: it returns normally and `sys.modules` is left
exactly as before — in particular no binding is published under the
synthetic name. -/
theorem c6_deep_swallow (env : Env) (extraPaths : List String) (st : PyState)
    (sname : String) (sub : List String) (e : PyErr) (st₂ : PyState)
    (hsplit : (pySplit sname '.').drop 2 = sub)
    (hsub : sub ≠ [])
    (himp : pyImport env { st with sysPath := st.sysPath ++ extraPaths } (joinDot sub) =
      (Except.error e, st₂))
    (hcls : isImportErrClass e = true) :
    (load_module env extraPaths st sname).1 = Except.ok () ∧
    ((load_module env extraPaths st sname).2).sysModules = st.sysModules := by
  have hie : sub.isEmpty = false := by
    cases sub with
    | nil => exact absurd rfl hsub
    | cons a l => rfl
  have hst₂ : st₂ = { st with sysPath := st.sysPath ++ extraPaths } :=
    pyImport_error_state env _ (joinDot sub) e st₂ himp
  simp only [load_module, hsplit, hie, Bool.false_eq_true, if_false, deepLoad, himp,
    hcls, if_true]
  exact ⟨trivial, by rw [hst₂]⟩

/-- C7 (amended): for a shallow-form request with a non-empty enumeration
all of whose unqualified imports succeed, `load_module` binds in
`sys.modules`, under the synthetic name, a `NixPackage` whose attributes
are exactly the enumerated modules, and every enumerated module is also
independently registered in `sys.modules` under its own unqualified name;
when the enumeration is empty, however, no binding is published under the
synthetic name (the `sys.modules[name] = pkg` assignment sits inside the
enumeration loop), contrary to the claim as stated. -/
theorem c7_shallow_namespace (env : Env) (st : PyState) (sname base : String)
    (rest : List String) (st' : PyState)
    (hsplit : (pySplit sname '.').drop 2 = [])
    (hnm : sname ∉ filter_modules (env.listdir base))
    (hne : filter_modules (env.listdir base) ≠ [])
    (hrun : load_module env (base :: rest) st sname = (Except.ok (), st')) :
    (∀ m, m ∈ filter_modules (env.listdir base) →
      (lookupA st'.sysModules m).isSome = true) ∧
    ∃ A, lookupA st'.sysModules sname = some (PyObj.pkg st.nextId sname A) ∧
      ∀ x, (lookupA A x).isSome = true ↔ x ∈ filter_modules (env.listdir base) := by
  have hkey : load_module env (base :: rest) st sname =
      ((shallowLoad env (base :: rest)
          { st with sysPath := st.sysPath ++ (base :: rest) } sname).1,
        { (shallowLoad env (base :: rest)
            { st with sysPath := st.sysPath ++ (base :: rest) } sname).2
          with sysPath := st.sysPath }) := by
    simp only [load_module, hsplit, List.isEmpty_nil, if_true]
  rw [hkey, Prod.mk.injEq] at hrun
  obtain ⟨h1, h2⟩ := hrun
  have hload2 : shallowLoad env (base :: rest)
      { st with sysPath := st.sysPath ++ (base :: rest) } sname =
      shallowLoop env sname st.nextId
        { st with sysPath := st.sysPath ++ (base :: rest), nextId := st.nextId + 1 } []
        (filter_modules (env.listdir base)) := rfl
  rw [hload2] at h1 h2
  have hLeq : shallowLoop env sname st.nextId
      { st with sysPath := st.sysPath ++ (base :: rest), nextId := st.nextId + 1 } []
      (filter_modules (env.listdir base)) =
      (Except.ok (), (shallowLoop env sname st.nextId
        { st with sysPath := st.sysPath ++ (base :: rest), nextId := st.nextId + 1 } []
        (filter_modules (env.listdir base))).2) := by
    rw [← h1]
  have hmods : st'.sysModules = (shallowLoop env sname st.nextId
      { st with sysPath := st.sysPath ++ (base :: rest), nextId := st.nextId + 1 } []
      (filter_modules (env.listdir base))).2.sysModules := by
    rw [← h2]
  constructor
  · intro m hm
    rw [hmods]
    exact shallowLoop_registers env sname st.nextId (filter_modules (env.listdir base))
      _ _ _ hLeq m hm
  · obtain ⟨A, hA1, hA2⟩ :=
      shallowLoop_pkg env sname st.nextId (filter_modules (env.listdir base))
        _ _ _ hLeq hnm hne
    refine ⟨A, ?_, ?_⟩
    · rw [hmods]; exact hA1
    · intro x
      rw [hA2 x]
      simp [lookupA]

theorem c7_shallow_namespace_witness :
    (∀ m, m ∈ filter_modules (envBase.listdir "/p") →
      (lookupA (PyState.mk []
          [("nixpkgs.pkg", PyObj.pkg 0 "nixpkgs.pkg" [("b", 1), ("a", 1)]),
            ("b", PyObj.mod 1), ("a", PyObj.mod 1)] 1).sysModules m).isSome = true) ∧
    ∃ A, lookupA (PyState.mk []
        [("nixpkgs.pkg", PyObj.pkg 0 "nixpkgs.pkg" [("b", 1), ("a", 1)]),
          ("b", PyObj.mod 1), ("a", PyObj.mod 1)] 1).sysModules "nixpkgs.pkg" =
        some (PyObj.pkg (PyState.mk [] [] 0).nextId "nixpkgs.pkg" A) ∧
      ∀ x, (lookupA A x).isSome = true ↔ x ∈ filter_modules (envBase.listdir "/p") :=
  c7_shallow_namespace envBase (PyState.mk [] [] 0) "nixpkgs.pkg" "/p" []
    (PyState.mk []
      [("nixpkgs.pkg", PyObj.pkg 0 "nixpkgs.pkg" [("b", 1), ("a", 1)]),
        ("b", PyObj.mod 1), ("a", PyObj.mod 1)] 1)
    (by decide) (by decide) (by decide) (by decide)

/-- C7 counterexample: a shallow-form request over an empty enumeration
(the primary directory has no importable entries) completes without
raising, yet no binding is published in `sys.modules` under the synthetic
name `nixpkgs.pkg`, because the publishing assignment is inside the
enumeration loop — refuting "binds that object in the module table" for
every shallow-form request. -/
theorem c7_counterexample_empty_enumeration :
    (load_module envEmptyDir ["/p"] (PyState.mk [] [] 0) "nixpkgs.pkg").1 =
      Except.ok () ∧
    lookupA ((load_module envEmptyDir ["/p"] (PyState.mk [] [] 0)
        "nixpkgs.pkg").2).sysModules "nixpkgs.pkg" = none :=
  ⟨rfl, rfl⟩

theorem c6_deep_swallow_witness :
    (load_module envDeep ["/p"] (PyState.mk ["/u"] [] 0) "nixpkgs.pkg.missing.mod").1 =
      Except.ok () ∧
    ((load_module envDeep ["/p"] (PyState.mk ["/u"] [] 0)
        "nixpkgs.pkg.missing.mod").2).sysModules = (PyState.mk ["/u"] [] 0).sysModules :=
  c6_deep_swallow envDeep ["/p"] (PyState.mk ["/u"] [] 0) "nixpkgs.pkg.missing.mod"
    ["missing", "mod"] (PyErr.moduleNotFound "missing.mod")
    (PyState.mk (["/u"] ++ ["/p"]) [] 0)
    (by decide) (by decide) (by decide) (by decide)
